import Mathlib

/-!
Shallow embedding of the calendar synchronization engine of this repository
(`src/services/calendarSync.ts` and `src/services/realtimeSync.ts`) and
proofs about its conflict resolution, provider normalization and
denormalization, fetch/retry behaviour, realtime operation sending, and
polling-timer lifecycle.

Modelling conventions:
- JavaScript values that may be `undefined` are modelled as `Option`.
- A JavaScript `Date` value is modelled as its epoch instant (`Int`);
  an Invalid Date (e.g. `new Date(undefined)`) is modelled as `none`,
  so `startTime`/`endTime` of an event are `Option Int`.
- A thrown JavaScript exception is modelled as `Except.error` with the
  exception kind as the message.
- Provider "last modified" fields are modelled as already-parsed epoch
  numbers (`Int`); items whose last-modified field fails to parse are out
  of scope of every claim considered here.
-/

set_option autoImplicit false

namespace CalendarSync

/-- The canonical event model (`CalendarEvent` of `../types`), as produced by
`normalizeProviderEvents`: every field read off a provider item may be
`undefined`, hence the `Option` fields. `sourceCalendar` and the
conflict-resolution strategy are kept as strings, as the `default` branch of
the code's `switch` accepts arbitrary strategy strings. -/
structure CalendarEvent where
  id : Option String
  title : Option String
  startTime : Option Int
  endTime : Option Int
  description : Option String
  sourceCalendar : String
  timestamp : Int
deriving Repr, DecidableEq

/-- `CalendarSyncConfig` of `../types`: provider tag, custom endpoint,
access token and conflict-resolution strategy. -/
structure CalendarSyncConfig where
  provider : String
  apiEndpoint : String
  accessToken : String
  conflictResolution : String
deriving Repr, DecidableEq

/-- `resolveConflict` (calendarSync.ts lines 126-138): switch on the
configured strategy; `"timestamp"` and the `default` branch share one arm,
exactly as in the source. The embedding is a pure Lean function, mirroring
that the source reads but never writes its two arguments. -/
def resolveConflict (config : CalendarSyncConfig)
    (localEvent remoteEvent : CalendarEvent) : CalendarEvent :=
  if config.conflictResolution = "source" then
    if remoteEvent.sourceCalendar ≠ "native" then remoteEvent else localEvent
  else if config.conflictResolution = "local" then
    localEvent
  else
    if localEvent.timestamp > remoteEvent.timestamp then localEvent else remoteEvent

/-- A configuration using the `"timestamp"` strategy, for concrete runs. -/
def tsConfig : CalendarSyncConfig :=
  { provider := "google", apiEndpoint := "", accessToken := "tok",
    conflictResolution := "timestamp" }

/-- A local and a remote version of the same logical event with equal
timestamps, differing only in title and origin. -/
def tieLocalEvent : CalendarEvent :=
  { id := some "e1", title := some "local title", startTime := some 0,
    endTime := some 60, description := none, sourceCalendar := "native",
    timestamp := 100 }

/-- Remote counterpart of `tieLocalEvent`: same `id`, same `timestamp`. -/
def tieRemoteEvent : CalendarEvent :=
  { id := some "e1", title := some "remote title", startTime := some 0,
    endTime := some 60, description := none, sourceCalendar := "google",
    timestamp := 100 }

/-- **C1** (counterexample). The claim says that under the `"timestamp"`
strategy, equal timestamps keep the local version. At the concrete tie
`tieLocalEvent`/`tieRemoteEvent` (same id, equal timestamps), the code
returns the remote version, which differs from the local one: the comparison
`localEvent.timestamp > remoteEvent.timestamp` is false on a tie, and the
ternary yields `remoteEvent`. -/
theorem resolveConflict_tie_returns_remote_cex :
    tieLocalEvent.id = tieRemoteEvent.id ∧
    tieLocalEvent.timestamp = tieRemoteEvent.timestamp ∧
    resolveConflict tsConfig tieLocalEvent tieRemoteEvent = tieRemoteEvent ∧
    tieRemoteEvent ≠ tieLocalEvent := by
  refine ⟨rfl, rfl, rfl, ?_⟩
  decide

/-- **C1** (amended). Under the `"timestamp"` strategy the event with the
strictly greater timestamp wins, and when the two timestamps are equal the
*remote* version is returned (not the local one as the spec claims). -/
theorem resolveConflict_timestamp_strategy (config : CalendarSyncConfig)
    (a b : CalendarEvent) (hid : a.id = b.id)
    (hs : config.conflictResolution = "timestamp") :
    (a.timestamp > b.timestamp → resolveConflict config a b = a) ∧
    (b.timestamp > a.timestamp → resolveConflict config a b = b) ∧
    (a.timestamp = b.timestamp → resolveConflict config a b = b) := by
  have hns : ¬(config.conflictResolution = "source") := by rw [hs]; decide
  have hnl : ¬(config.conflictResolution = "local") := by rw [hs]; decide
  unfold resolveConflict
  rw [if_neg hns, if_neg hnl]
  refine ⟨fun h => if_pos h, fun h => ?_, fun h => ?_⟩
  · rw [if_neg]; omega
  · rw [if_neg]; omega

/-- Witness for `resolveConflict_timestamp_strategy` at the concrete tie pair. -/
theorem resolveConflict_timestamp_strategy_witness :
    resolveConflict tsConfig tieLocalEvent tieRemoteEvent = tieRemoteEvent :=
  (resolveConflict_timestamp_strategy tsConfig tieLocalEvent tieRemoteEvent
    rfl rfl).2.2 rfl

/-- **C5**. `resolveConflict` is idempotent under every configured strategy
(including unrecognized strategy strings, which take the `default` branch):
re-resolving the winner against the remote version returns the same winner. -/
theorem resolveConflict_idempotent (config : CalendarSyncConfig)
    (a b : CalendarEvent) (hid : a.id = b.id) :
    resolveConflict config (resolveConflict config a b) b =
      resolveConflict config a b := by
  unfold resolveConflict
  split
  · split <;> simp_all
  · split
    · rfl
    · split <;> simp <;> omega

/-- Witness for `resolveConflict_idempotent` at the concrete tie pair. -/
theorem resolveConflict_idempotent_witness :
    resolveConflict tsConfig (resolveConflict tsConfig tieLocalEvent tieRemoteEvent)
      tieRemoteEvent = resolveConflict tsConfig tieLocalEvent tieRemoteEvent :=
  resolveConflict_idempotent tsConfig tieLocalEvent tieRemoteEvent rfl

/-- **C6**. `resolveConflict` is pure and total: it is a total Lean function
of its arguments (no effects, neither input mutated — the embedding returns
one of the two argument values unchanged), and for every configuration,
including unrecognized strategy strings, it returns exactly one of its two
input events. -/
theorem resolveConflict_returns_an_input (config : CalendarSyncConfig)
    (a b : CalendarEvent) (hid : a.id = b.id) :
    resolveConflict config a b = a ∨ resolveConflict config a b = b := by
  unfold resolveConflict
  split
  · split
    · exact Or.inr rfl
    · exact Or.inl rfl
  · split
    · exact Or.inl rfl
    · split
      · exact Or.inl rfl
      · exact Or.inr rfl

/-- Witness for `resolveConflict_returns_an_input`: with an unrecognized
strategy string the function still returns one of its inputs. -/
theorem resolveConflict_returns_an_input_witness :
    resolveConflict { tsConfig with conflictResolution := "unknown-strategy" }
        tieLocalEvent tieRemoteEvent = tieLocalEvent ∨
      resolveConflict { tsConfig with conflictResolution := "unknown-strategy" }
        tieLocalEvent tieRemoteEvent = tieRemoteEvent :=
  resolveConflict_returns_an_input _ tieLocalEvent tieRemoteEvent rfl

/-- A JavaScript `{dateTime, date}` object as found under `start`/`end` of a
google item (outlook items only ever populate `dateTime`). Each field may be
absent; a present date string is modelled by its parsed instant. -/
structure DatePart where
  dateTime : Option Int
  date : Option Int
deriving Repr, DecidableEq

/-- A provider item as the `any`-typed normalizers see it: the union of all
fields the three normalizers read. A `none` field is one that is absent
(`undefined`) on the item; reading `item.start.dateTime` when `item.start`
is `none` is the thrown `TypeError` modelled in the normalizers below.
The last-modified fields (`updated`, `lastModified`, `lastModifiedDateTime`)
are modelled as already-parsed epoch numbers. -/
structure RawItem where
  id : Option String
  uid : Option String
  summary : Option String
  subject : Option String
  start : Option DatePart
  «end» : Option DatePart
  dtstart : Option Int
  dtend : Option Int
  description : Option String
  bodyPreview : Option String
  updated : Int
  lastModified : Int
  lastModifiedDateTime : Int
deriving Repr, DecidableEq

/-- JavaScript `a || b` on possibly-undefined values. -/
def jsOr {α : Type} : Option α → Option α → Option α
  | some x, _ => some x
  | none, b => b

/-- The `google` normalizer arm (calendarSync.ts lines 68-76): reads
`item.start.dateTime || item.start.date` and the same for `end`; accessing
those properties on an absent `start`/`end` object throws a `TypeError`. -/
def googleNormalizeItem (item : RawItem) : Except String CalendarEvent :=
  match item.start, item.«end» with
  | some s, some e =>
      .ok { id := item.id, title := item.summary,
            startTime := jsOr s.dateTime s.date,
            endTime := jsOr e.dateTime e.date,
            description := item.description,
            sourceCalendar := "google",
            timestamp := item.updated }
  | _, _ => .error "TypeError"

/-- The `apple` normalizer arm (calendarSync.ts lines 78-86): reads flat
fields, so it never throws; an absent `dtstart`/`dtend` yields an Invalid
Date (`none`). -/
def appleNormalizeItem (item : RawItem) : CalendarEvent :=
  { id := item.uid, title := item.summary,
    startTime := item.dtstart,
    endTime := item.dtend,
    description := item.description,
    sourceCalendar := "apple",
    timestamp := item.lastModified }

/-- The `outlook` normalizer arm (calendarSync.ts lines 88-96): reads
`item.start.dateTime` and `item.end.dateTime`; accessing them on an absent
`start`/`end` object throws a `TypeError`. -/
def outlookNormalizeItem (item : RawItem) : Except String CalendarEvent :=
  match item.start, item.«end» with
  | some s, some e =>
      .ok { id := item.id, title := item.subject,
            startTime := s.dateTime,
            endTime := e.dateTime,
            description := item.bodyPreview,
            sourceCalendar := "outlook",
            timestamp := item.lastModifiedDateTime }
  | _, _ => .error "TypeError"

/-- JavaScript `Array.prototype.map` over a callback that may throw: items
are processed left to right and the first exception aborts the whole map. -/
def mapExcept {α β : Type} (f : α → Except String β) :
    List α → Except String (List β)
  | [] => .ok []
  | x :: xs =>
    match f x with
    | .error e => .error e
    | .ok y =>
      match mapExcept f xs with
      | .error e => .error e
      | .ok ys => .ok (y :: ys)

/-- `normalizeProviderEvents` (calendarSync.ts lines 66-101): object-literal
dispatch on `config.provider`; an unknown provider finds no normalizer and
the function returns `[]` (`normalizer ? normalizer(...) : []`). The
`data.items || data.value || data` unwrapping is orthogonal to every claim
and the payload is modelled as the item list it yields. -/
def normalizeProviderEvents (config : CalendarSyncConfig)
    (items : List RawItem) : Except String (List CalendarEvent) :=
  if config.provider = "google" then mapExcept googleNormalizeItem items
  else if config.provider = "apple" then .ok (items.map appleNormalizeItem)
  else if config.provider = "outlook" then mapExcept outlookNormalizeItem items
  else .ok []

/-- A provider-formatted outgoing payload, as built by
`formatEventForProvider`; the `passthrough` constructor is the `: event`
fallback for unknown providers. Constant fields of the source (outlook's
`contentType: 'text'` and `timeZone: 'UTC'`) are kept as constants during
construction. Time fields hold the instant whose `toISOString()` string the
source puts in the payload. -/
inductive FormattedPayload where
  | googleW (summary : Option String) (description : Option String)
      (startDateTime : Int) (endDateTime : Int)
  | appleW (summary : Option String) (description : Option String)
      (dtstart : Int) (dtend : Int)
  | outlookW (subject : Option String) (bodyContent : Option String)
      (contentType : String) (startDateTime : Int) (endDateTime : Int)
      (timeZone : String)
  | passthrough (event : CalendarEvent)
deriving Repr, DecidableEq

/-- `Date.prototype.toISOString`: throws a `RangeError` on an Invalid Date,
otherwise renders the instant (modelled by the instant itself). -/
def toISOString : Option Int → Except String Int
  | some t => .ok t
  | none => .error "RangeError"

/-- Every known-provider formatter arm calls `toISOString` on the event's
start time and then on its end time while building its payload object; the
first throw aborts the arm. This helper factors that shared shape: `build`
is the rest of the payload construction. -/
def formatTimes (event : CalendarEvent)
    (build : Int → Int → FormattedPayload) : Except String FormattedPayload :=
  match toISOString event.startTime with
  | .error e => .error e
  | .ok s =>
    match toISOString event.endTime with
    | .error e2 => .error e2
    | .ok e => .ok (build s e)

/-- `formatEventForProvider` (calendarSync.ts lines 143-169): object-literal
dispatch on `config.provider`; known providers rebuild their native schema
from the canonical event (calling `toISOString` on both times), unknown
providers return the event unchanged (`formatter ? formatter(event) : event`). -/
def formatEventForProvider (config : CalendarSyncConfig)
    (event : CalendarEvent) : Except String FormattedPayload :=
  if config.provider = "google" then
    formatTimes event (fun s e => .googleW event.title event.description s e)
  else if config.provider = "apple" then
    formatTimes event (fun s e => .appleW event.title event.description s e)
  else if config.provider = "outlook" then
    formatTimes event
      (fun s e => .outlookW event.title event.description "text" s e "UTC")
  else
    .ok (.passthrough event)

/-- `getProviderEndpoint` (calendarSync.ts lines 53-61): fixed URL per known
provider, `config.apiEndpoint` fallback for everything else (the object
lookup yields `undefined`, so `|| this.config.apiEndpoint` applies). -/
def getProviderEndpoint (config : CalendarSyncConfig) : String :=
  if config.provider = "google" then
    "https://www.googleapis.com/calendar/v3/calendars/primary/events"
  else if config.provider = "apple" then
    "https://caldav.icloud.com"
  else if config.provider = "outlook" then
    "https://graph.microsoft.com/v1.0/me/calendar/events"
  else
    config.apiEndpoint

/-- A sync configuration selecting the google provider. -/
def googleConfig : CalendarSyncConfig :=
  { provider := "google", apiEndpoint := "", accessToken := "tok",
    conflictResolution := "timestamp" }

/-- A sync configuration whose provider tag is not a known provider. -/
def customConfig : CalendarSyncConfig :=
  { provider := "custom", apiEndpoint := "https://example.com/api",
    accessToken := "tok", conflictResolution := "timestamp" }

/-- A well-formed google item: `start`/`end` objects present with `dateTime`. -/
def goodGoogleItem : RawItem :=
  { id := some "g1", uid := none, summary := some "Meeting",
    subject := none, start := some { dateTime := some 1000, date := none },
    «end» := some { dateTime := some 2000, date := none },
    dtstart := none, dtend := none, description := some "weekly",
    bodyPreview := none, updated := 5, lastModified := 0,
    lastModifiedDateTime := 0 }

/-- A malformed google item: the `start` object is absent, so the google
normalizer's `item.start.dateTime` access throws. -/
def missingStartItem : RawItem :=
  { goodGoogleItem with id := some "g2", start := none }

/-- **C3** (counterexample). The claim says `normalize` never raises on a
single malformed item and returns the valid subset. On a batch with one
valid google item followed by one item missing its `start`, the code's
`items.map` throws a `TypeError` (accessing `.dateTime` of `undefined`),
aborting the whole batch: no valid subset is returned. -/
theorem normalize_malformed_aborts_batch_cex :
    normalizeProviderEvents googleConfig [goodGoogleItem, missingStartItem] =
      .error "TypeError" := by
  rfl

/-- If the JavaScript `map` of a throwing callback returns a value, the
callback returned a value on every element of the array. -/
theorem mapExcept_ok_mem {α β : Type} (f : α → Except String β) :
    ∀ (l : List α) (ys : List β), mapExcept f l = .ok ys →
      ∀ x ∈ l, ∃ y, f x = .ok y := by
  intro l
  induction l with
  | nil => intro ys _ x hx; cases hx
  | cons a as ih =>
    intro ys h x hx
    rw [mapExcept] at h
    cases hfa : f a with
    | error e => rw [hfa] at h; cases h
    | ok y =>
      rw [hfa] at h
      cases hm : mapExcept f as with
      | error e => rw [hm] at h; cases h
      | ok ys0 =>
        cases hx with
        | head => exact ⟨y, hfa⟩
        | tail _ hx2 => exact ih ys0 hm x hx2

/-- **C3** (amended). `normalize` does not skip malformed items, under any
of the three adapters. For a batch containing an item whose time containers
are absent (`start`/`end` objects missing, `dtstart`/`dtend` missing):
under the google and outlook arms the per-item `TypeError` aborts the
entire batch, so no list of events is returned at all; under the apple arm
the malformed item is not filtered either — it is included at its batch
position as an event with Invalid-Date times. -/
theorem normalize_no_item_skipping (config : CalendarSyncConfig)
    (pre post : List RawItem) (bad : RawItem) (hb : bad.start = none)
    (hbs : bad.dtstart = none) (hbe : bad.dtend = none) :
    (config.provider = "google" →
      ∀ evs, normalizeProviderEvents config (pre ++ bad :: post) ≠ .ok evs) ∧
    (config.provider = "outlook" →
      ∀ evs, normalizeProviderEvents config (pre ++ bad :: post) ≠ .ok evs) ∧
    (config.provider = "apple" →
      normalizeProviderEvents config (pre ++ bad :: post) =
        .ok (pre.map appleNormalizeItem ++
          appleNormalizeItem bad :: post.map appleNormalizeItem) ∧
      (appleNormalizeItem bad).startTime = none ∧
      (appleNormalizeItem bad).endTime = none) := by
  refine ⟨?_, ?_, ?_⟩
  · intro hp evs h
    rw [normalizeProviderEvents, if_pos hp] at h
    obtain ⟨y, hy⟩ := mapExcept_ok_mem googleNormalizeItem _ evs h bad
      (by simp)
    rw [googleNormalizeItem, hb] at hy
    cases hy
  · intro hp evs h
    have hg : ¬(config.provider = "google") := by rw [hp]; decide
    have ha : ¬(config.provider = "apple") := by rw [hp]; decide
    rw [normalizeProviderEvents, if_neg hg, if_neg ha, if_pos hp] at h
    obtain ⟨y, hy⟩ := mapExcept_ok_mem outlookNormalizeItem _ evs h bad
      (by simp)
    rw [outlookNormalizeItem, hb] at hy
    cases hy
  · intro hp
    have hg : ¬(config.provider = "google") := by rw [hp]; decide
    refine ⟨?_, hbs, hbe⟩
    rw [normalizeProviderEvents, if_neg hg, if_pos hp]
    simp

/-- Witness for `normalize_no_item_skipping` on the concrete two-item google
batch: the batch does not normalize to the one-event valid subset the
original claim expects. -/
theorem normalize_no_item_skipping_witness :
    normalizeProviderEvents googleConfig
      ([goodGoogleItem] ++ missingStartItem :: []) ≠
      .ok [{ id := some "g1", title := some "Meeting", startTime := some 1000,
             endTime := some 2000, description := some "weekly",
             sourceCalendar := "google", timestamp := 5 }] :=
  (normalize_no_item_skipping googleConfig [goodGoogleItem] [] missingStartItem
    rfl rfl rfl).1 rfl _

/-- A google item whose `end` instant (50) is strictly earlier than its
`start` instant (100). -/
def invertedTimesItem : RawItem :=
  { goodGoogleItem with
    start := some { dateTime := some 100, date := none },
    «end» := some { dateTime := some 50, date := none } }

/-- The canonical event the google normalizer produces for
`invertedTimesItem`. -/
def invertedTimesEvent : CalendarEvent :=
  { id := some "g1", title := some "Meeting", startTime := some 100,
    endTime := some 50, description := some "weekly",
    sourceCalendar := "google", timestamp := 5 }

/-- **C9** (counterexample). The claim says an item whose `endTime` is
strictly earlier than its `startTime` is rejected at normalization. The
google normalizer performs no such check: the item with start 100 and end 50
is included in the returned list unchanged. -/
theorem normalize_accepts_inverted_times_cex :
    normalizeProviderEvents googleConfig [invertedTimesItem] =
      .ok [invertedTimesEvent] ∧
    invertedTimesEvent.endTime = some 50 ∧
    invertedTimesEvent.startTime = some 100 ∧ (50 : Int) < 100 := by
  refine ⟨rfl, rfl, rfl, by norm_num⟩

/-- A JavaScript `map` of a throwing callback over a concatenation: when the
surrounding sub-batches succeed and the callback returns on the middle item,
the middle item's image appears at its position in the output. -/
theorem mapExcept_append {α β : Type} (f : α → Except String β) :
    ∀ (pre : List α) (evsPre : List β), mapExcept f pre = .ok evsPre →
      ∀ (x : α) (y : β), f x = .ok y →
        ∀ (post : List α) (evsPost : List β),
          mapExcept f post = .ok evsPost →
          mapExcept f (pre ++ x :: post) = .ok (evsPre ++ y :: evsPost) := by
  intro pre
  induction pre with
  | nil =>
    intro evsPre hpre x y hx post evsPost hpost
    rw [mapExcept] at hpre
    cases hpre
    simp only [List.nil_append]
    rw [mapExcept, hx, hpost]
  | cons a as ih =>
    intro evsPre hpre x y hx post evsPost hpost
    rw [mapExcept] at hpre
    cases hfa : f a with
    | error ea => rw [hfa] at hpre; cases hpre
    | ok ya =>
      rw [hfa] at hpre
      cases hm : mapExcept f as with
      | error ea => rw [hm] at hpre; cases hpre
      | ok yas =>
        rw [hm] at hpre
        cases hpre
        simp only [List.cons_append]
        rw [mapExcept, hfa, ih yas hm x y hx post evsPost hpost]

/-- **C9** (amended). Normalization performs no time-order validation under
any of the three adapters: an item whose time fields carry instants `st` and
`et` — with no constraint whatsoever on their order, so in particular
`et < st` and the zero-duration case `et = st` — is normalized and included
at its position in the returned list with exactly those times, in any batch
whose surrounding items normalize. -/
theorem normalize_no_time_order_check (config : CalendarSyncConfig)
    (item : RawItem) (st et : Int) (pre post : List RawItem)
    (evsPre evsPost : List CalendarEvent) :
    (config.provider = "google" →
      ∀ s e, item.start = some s → item.«end» = some e →
        s.dateTime = some st → e.dateTime = some et →
        normalizeProviderEvents config pre = .ok evsPre →
        normalizeProviderEvents config post = .ok evsPost →
        normalizeProviderEvents config (pre ++ item :: post) =
          .ok (evsPre ++
            { id := item.id, title := item.summary, startTime := some st,
              endTime := some et, description := item.description,
              sourceCalendar := "google", timestamp := item.updated } ::
            evsPost)) ∧
    (config.provider = "outlook" →
      ∀ s e, item.start = some s → item.«end» = some e →
        s.dateTime = some st → e.dateTime = some et →
        normalizeProviderEvents config pre = .ok evsPre →
        normalizeProviderEvents config post = .ok evsPost →
        normalizeProviderEvents config (pre ++ item :: post) =
          .ok (evsPre ++
            { id := item.id, title := item.subject, startTime := some st,
              endTime := some et, description := item.bodyPreview,
              sourceCalendar := "outlook",
              timestamp := item.lastModifiedDateTime } :: evsPost)) ∧
    (config.provider = "apple" →
      item.dtstart = some st → item.dtend = some et →
      normalizeProviderEvents config (pre ++ item :: post) =
        .ok (pre.map appleNormalizeItem ++
          { id := item.uid, title := item.summary, startTime := some st,
            endTime := some et, description := item.description,
            sourceCalendar := "apple", timestamp := item.lastModified } ::
          post.map appleNormalizeItem)) := by
  refine ⟨?_, ?_, ?_⟩
  · intro hp s e hs he hsd hed hpre hpost
    rw [normalizeProviderEvents, if_pos hp] at hpre hpost ⊢
    have hitem : googleNormalizeItem item =
        .ok { id := item.id, title := item.summary, startTime := some st,
              endTime := some et, description := item.description,
              sourceCalendar := "google", timestamp := item.updated } := by
      simp [googleNormalizeItem, hs, he, jsOr, hsd, hed]
    exact mapExcept_append googleNormalizeItem pre evsPre hpre item _ hitem
      post evsPost hpost
  · intro hp s e hs he hsd hed hpre hpost
    have hg : ¬(config.provider = "google") := by rw [hp]; decide
    have ha : ¬(config.provider = "apple") := by rw [hp]; decide
    rw [normalizeProviderEvents, if_neg hg, if_neg ha, if_pos hp]
      at hpre hpost ⊢
    have hitem : outlookNormalizeItem item =
        .ok { id := item.id, title := item.subject, startTime := some st,
              endTime := some et, description := item.bodyPreview,
              sourceCalendar := "outlook",
              timestamp := item.lastModifiedDateTime } := by
      simp [outlookNormalizeItem, hs, he, hsd, hed]
    exact mapExcept_append outlookNormalizeItem pre evsPre hpre item _ hitem
      post evsPost hpost
  · intro hp hds hde
    have hg : ¬(config.provider = "google") := by rw [hp]; decide
    rw [normalizeProviderEvents, if_neg hg, if_pos hp]
    simp [appleNormalizeItem, hds, hde]

/-- Witness for `normalize_no_time_order_check` at the concrete inverted
google item (end instant 50 strictly before start instant 100), as a
one-item batch. -/
theorem normalize_no_time_order_check_witness :
    normalizeProviderEvents googleConfig ([] ++ invertedTimesItem :: []) =
      .ok ([] ++
        ({ id := invertedTimesItem.id, title := invertedTimesItem.summary,
           startTime := some 100, endTime := some 50,
           description := invertedTimesItem.description,
           sourceCalendar := "google",
           timestamp := invertedTimesItem.updated } : CalendarEvent) :: []) :=
  (normalize_no_time_order_check googleConfig invertedTimesItem 100 50
    [] [] [] []).1 rfl
    { dateTime := some 100, date := none }
    { dateTime := some 50, date := none } rfl rfl rfl rfl rfl rfl

/-- **C7** (counterexample). The claim says that for an unknown provider,
normalization passes the payload's events through unchanged. The code's
`normalizer ? normalizer(...) : []` instead returns the empty list: a
one-item payload normalizes to zero events. -/
theorem unknown_provider_normalize_drops_cex :
    normalizeProviderEvents customConfig [goodGoogleItem] = .ok [] ∧
    [goodGoogleItem] ≠ [] := by
  exact ⟨rfl, by simp⟩

/-- **C7** (amended). For an unknown provider tag the endpoint falls back to
the caller-supplied `config.apiEndpoint` and denormalization returns the
event unchanged (pass-through), but normalization returns the empty list —
it drops the payload's events rather than passing them through. -/
theorem unknown_provider_fallback (config : CalendarSyncConfig)
    (items : List RawItem) (event : CalendarEvent)
    (hg : config.provider ≠ "google") (ha : config.provider ≠ "apple")
    (ho : config.provider ≠ "outlook") :
    getProviderEndpoint config = config.apiEndpoint ∧
    normalizeProviderEvents config items = .ok [] ∧
    formatEventForProvider config event = .ok (.passthrough event) := by
  refine ⟨?_, ?_, ?_⟩
  · rw [getProviderEndpoint, if_neg hg, if_neg ha, if_neg ho]
  · rw [normalizeProviderEvents, if_neg hg, if_neg ha, if_neg ho]
  · rw [formatEventForProvider, if_neg hg, if_neg ha, if_neg ho]

/-- Witness for `unknown_provider_fallback` at the concrete custom config. -/
theorem unknown_provider_fallback_witness :
    getProviderEndpoint customConfig = customConfig.apiEndpoint ∧
    normalizeProviderEvents customConfig [goodGoogleItem] = .ok [] ∧
    formatEventForProvider customConfig tieLocalEvent =
      .ok (.passthrough tieLocalEvent) :=
  unknown_provider_fallback customConfig [goodGoogleItem] tieLocalEvent
    (by decide) (by decide) (by decide)

/-- The four fields the canonical model preserves across a
normalize/denormalize round trip: title, start instant, end instant and
description. -/
structure PreservedFields where
  title : Option String
  startInstant : Option Int
  endInstant : Option Int
  description : Option String
deriving Repr, DecidableEq

/-- The values a provider's *read* schema carries in those four fields, as
consumed by the corresponding normalizer arm: google reads
`summary`/`start.dateTime || start.date`/`end.dateTime || end.date`/
`description`, apple reads `summary`/`dtstart`/`dtend`/`description`,
outlook reads `subject`/`start.dateTime`/`end.dateTime`/`bodyPreview`.
`none` when the item's time containers are absent or the provider is
unknown. -/
def readFields (provider : String) (item : RawItem) : Option PreservedFields :=
  if provider = "google" then
    match item.start, item.«end» with
    | some s, some e =>
        some { title := item.summary, startInstant := jsOr s.dateTime s.date,
               endInstant := jsOr e.dateTime e.date,
               description := item.description }
    | _, _ => none
  else if provider = "apple" then
    some { title := item.summary, startInstant := item.dtstart,
           endInstant := item.dtend, description := item.description }
  else if provider = "outlook" then
    match item.start, item.«end» with
    | some s, some e =>
        some { title := item.subject, startInstant := s.dateTime,
               endInstant := e.dateTime, description := item.bodyPreview }
    | _, _ => none
  else none

/-- The values a provider's *write* schema carries in those four fields, as
produced by the corresponding formatter arm: google writes
`summary`/`start.dateTime`/`end.dateTime`/`description`, apple writes
`summary`/`dtstart`/`dtend`/`description`, outlook writes
`subject`/`start.dateTime`/`end.dateTime`/`body.content`. -/
def writtenFields : FormattedPayload → Option PreservedFields
  | .googleW su de s e =>
      some { title := su, startInstant := some s, endInstant := some e,
             description := de }
  | .appleW su de s e =>
      some { title := su, startInstant := some s, endInstant := some e,
             description := de }
  | .outlookW su bo _ s e _ =>
      some { title := su, startInstant := some s, endInstant := some e,
             description := bo }
  | .passthrough _ => none

/-- Inverting `formatTimes`: a successful format means both times were valid
instants and the payload is the builder applied to them. -/
theorem formatTimes_ok (event : CalendarEvent)
    (build : Int → Int → FormattedPayload) (pay : FormattedPayload)
    (h : formatTimes event build = .ok pay) :
    ∃ s e, event.startTime = some s ∧ event.endTime = some e ∧
      pay = build s e := by
  cases hs : event.startTime with
  | none => rw [formatTimes, hs] at h; cases h
  | some s =>
    cases he : event.endTime with
    | none => rw [formatTimes, hs, he] at h; cases h
    | some e =>
      rw [formatTimes, hs, he] at h
      exact ⟨s, e, rfl, rfl, (Except.ok.injEq _ _ ▸ h).symm⟩

/-- **C4**. Round trip for every provider adapter: whenever a provider item
normalizes (as a one-item batch) to a canonical event and that event
denormalizes to a provider payload, the payload carries exactly the title,
start instant, end instant and description values that the normalizer read
off the item — and those fields are genuinely present (`≠ none`). -/
theorem adapter_round_trip (config : CalendarSyncConfig) (item : RawItem)
    (ev : CalendarEvent) (pay : FormattedPayload)
    (h1 : normalizeProviderEvents config [item] = .ok [ev])
    (h2 : formatEventForProvider config ev = .ok pay) :
    writtenFields pay = readFields config.provider item ∧
    writtenFields pay ≠ none := by
  by_cases hg : config.provider = "google"
  · rw [normalizeProviderEvents, if_pos hg] at h1
    rw [formatEventForProvider, if_pos hg] at h2
    cases hgi : googleNormalizeItem item with
    | error e => simp [mapExcept, hgi] at h1
    | ok y =>
      simp [mapExcept, hgi] at h1
      subst h1
      cases hst : item.start with
      | none => simp [googleNormalizeItem, hst] at hgi
      | some s =>
        cases het : item.«end» with
        | none => simp [googleNormalizeItem, hst, het] at hgi
        | some e =>
          rw [googleNormalizeItem, hst, het] at hgi
          obtain ⟨st, et, hsi, hei, hpay⟩ := formatTimes_ok _ _ _ h2
          have hy := (Except.ok.injEq _ _ ▸ hgi)
          subst hy hpay
          simp only [readFields, if_pos hg, hst, het, writtenFields] at *
          simp_all
  · by_cases ha : config.provider = "apple"
    · rw [normalizeProviderEvents, if_neg hg, if_pos ha] at h1
      rw [formatEventForProvider, if_neg hg, if_pos ha] at h2
      simp only [List.map] at h1
      have hev : appleNormalizeItem item = ev := by
        have := (Except.ok.injEq _ _ ▸ h1)
        simpa using this
      obtain ⟨st, et, hsi, hei, hpay⟩ := formatTimes_ok _ _ _ h2
      subst hpay
      rw [← hev] at hsi hei
      simp only [appleNormalizeItem] at hsi hei
      simp only [readFields, if_neg hg, if_pos ha, writtenFields, ← hev,
        appleNormalizeItem, hsi, hei]
      simp
    · by_cases ho : config.provider = "outlook"
      · rw [normalizeProviderEvents, if_neg hg, if_neg ha, if_pos ho] at h1
        rw [formatEventForProvider, if_neg hg, if_neg ha, if_pos ho] at h2
        cases hoi : outlookNormalizeItem item with
        | error e => simp [mapExcept, hoi] at h1
        | ok y =>
          simp [mapExcept, hoi] at h1
          subst h1
          cases hst : item.start with
          | none => simp [outlookNormalizeItem, hst] at hoi
          | some s =>
            cases het : item.«end» with
            | none => simp [outlookNormalizeItem, hst, het] at hoi
            | some e =>
              rw [outlookNormalizeItem, hst, het] at hoi
              obtain ⟨st, et, hsi, hei, hpay⟩ := formatTimes_ok _ _ _ h2
              have hy := (Except.ok.injEq _ _ ▸ hoi)
              subst hy hpay
              simp only [readFields, if_pos ho, if_neg hg, if_neg ha, hst,
                het, writtenFields] at *
              simp_all
      · rw [normalizeProviderEvents, if_neg hg, if_neg ha, if_neg ho] at h1
        cases h1

/-- Witness for `adapter_round_trip` on the concrete well-formed google
item. -/
theorem adapter_round_trip_witness :
    writtenFields (.googleW (some "Meeting") (some "weekly") 1000 2000) =
      readFields googleConfig.provider goodGoogleItem ∧
    writtenFields (.googleW (some "Meeting") (some "weekly") 1000 2000) ≠
      none :=
  adapter_round_trip googleConfig goodGoogleItem
    { id := some "g1", title := some "Meeting", startTime := some 1000,
      endTime := some 2000, description := some "weekly",
      sourceCalendar := "google", timestamp := 5 }
    (.googleW (some "Meeting") (some "weekly") 1000 2000) rfl rfl

/-- One transport-level outcome of the HTTP GET inside `fetchRemoteEvents`:
a successful response carrying provider data, a 401 authorization failure,
or any other error. -/
inductive FetchResult where
  | ok (data : List RawItem)
  | err401
  | errOther
deriving Repr, DecidableEq

/-- Observable trace of one `fetchRemoteEvents` call: how many HTTP fetches
were issued, how many times `refreshAccessToken` was called, and the final
outcome. -/
structure FetchTrace where
  fetchCount : Nat
  refreshCount : Nat
  result : Except String (List CalendarEvent)
deriving Repr

/-- `fetchRemoteEvents` (calendarSync.ts lines 29-48) run against a
scripted sequence of transport outcomes (consumed left to right, one per
issued request). On success the response data is normalized; on a 401 the
code awaits `refreshAccessToken` and then *recursively calls itself*, which
issues the next request; any other error propagates. An exhausted script is
reported as an error (the real code would keep issuing requests, recursing
as long as the transport keeps answering 401). -/
def fetchRemoteEvents (config : CalendarSyncConfig) :
    List FetchResult → FetchTrace
  | [] => { fetchCount := 0, refreshCount := 0,
            result := .error "script exhausted" }
  | .ok data :: _ =>
      { fetchCount := 1, refreshCount := 0,
        result := normalizeProviderEvents config data }
  | .err401 :: rest =>
      let t := fetchRemoteEvents config rest
      { fetchCount := t.fetchCount + 1, refreshCount := t.refreshCount + 1,
        result := t.result }
  | .errOther :: _ =>
      { fetchCount := 1, refreshCount := 0, result := .error "network error" }

/-- **C2** (code bug). The claim (and the spec) demand exactly one refresh
and one retried fetch, with a second 401 propagating an error. The code's
401 handler recursively re-enters `fetchRemoteEvents` with no retry bound:
with a transport answering 401, 401, then 200, it calls
`refreshAccessToken` twice and issues three fetches, and the second 401 is
swallowed rather than surfaced — the recursion only stops when the
transport stops answering 401 (in general, ever-401 responses mean
unbounded recursion: against `n` consecutive 401s the code performs `n`
refreshes). -/
theorem fetch_retry_is_unbounded :
    (∀ (n : Nat) (data : List RawItem),
      (fetchRemoteEvents googleConfig
        (List.replicate n .err401 ++ [.ok data])).refreshCount = n) ∧
    fetchRemoteEvents googleConfig [.err401, .err401, .ok []] =
      { fetchCount := 3, refreshCount := 2, result := .ok [] } := by
  constructor
  · intro n data
    induction n with
    | zero => rfl
    | succ m ih =>
      rw [List.replicate_succ, List.cons_append, fetchRemoteEvents]
      simpa using ih
  · rfl

/-- A single pending mutation (`SyncOperation` of `../types`); only its
identity matters to the claims, so the payload is its id. -/
structure SyncOperation where
  opId : String
deriving Repr, DecidableEq

/-- The `RealtimeSyncService` instance state (realtimeSync.ts lines 4-12):
the socket handle (`none` models the `null` socket of a disconnected
service) plus the constructor-supplied url and token. The class has no
queue, buffer or dead-letter field of any kind. -/
structure RealtimeSyncService where
  socket : Option Nat
  url : String
  token : String
deriving Repr, DecidableEq

/-- A message emitted on the socket: event name and operations payload. -/
structure EmittedMessage where
  event : String
  operations : List SyncOperation
deriving Repr, DecidableEq

/-- `sendOperations` (realtimeSync.ts lines 50-54):
`if (this.socket) { this.socket.emit('operations', operations) }`.
The embedding returns the service state after the call together with the
list of messages emitted by it: with a socket present, one
`operations` emit; otherwise no emission — and no other effect, since the
method body contains nothing else. -/
def sendOperations (service : RealtimeSyncService)
    (operations : List SyncOperation) :
    RealtimeSyncService × List EmittedMessage :=
  match service.socket with
  | some _ => (service, [{ event := "operations", operations := operations }])
  | none => (service, [])

/-- A disconnected realtime service (socket is `null`). -/
def disconnectedService : RealtimeSyncService :=
  { socket := none, url := "wss://sync.example.com", token := "tok" }

/-- A concrete pending local operation. -/
def sampleOperation : SyncOperation := { opId := "op1" }

/-- **C8** (counterexample). The claim says operations submitted while the
channel is disconnected remain held for later transmission. Submitting one
operation to the disconnected service emits nothing and leaves the service
state exactly as it was: the state has no queue field, so the operation is
retained nowhere — it is silently discarded with no surfaced notice. -/
theorem sendOperations_disconnected_drops_cex :
    disconnectedService.socket = none ∧
    sendOperations disconnectedService [sampleOperation] =
      (disconnectedService, []) ∧
    [sampleOperation] ≠ [] := by
  exact ⟨rfl, rfl, by simp⟩

/-- **C8** (amended). While the socket is `null`, `sendOperations` is a
no-op: it emits nothing and returns the service state unchanged, so the
submitted operations are silently dropped (the service keeps no sync queue
and surfaces no notice). -/
theorem sendOperations_disconnected_noop (service : RealtimeSyncService)
    (operations : List SyncOperation) (h : service.socket = none) :
    sendOperations service operations = (service, []) := by
  rw [sendOperations, h]

/-- Witness for `sendOperations_disconnected_noop` at the concrete
disconnected service. -/
theorem sendOperations_disconnected_noop_witness :
    sendOperations disconnectedService [sampleOperation] =
      (disconnectedService, []) :=
  sendOperations_disconnected_noop disconnectedService [sampleOperation] rfl

/-- The JavaScript interval-timer environment: handles handed out so far
and the handles still active. `setInterval` returns a fresh handle,
`clearInterval` deactivates one. -/
structure TimerEnv where
  nextId : Nat
  active : List Nat
deriving Repr, DecidableEq

/-- `setInterval(...)`: registers a fresh active timer and returns its
handle. -/
def setIntervalTimer (env : TimerEnv) : TimerEnv × Nat :=
  ({ nextId := env.nextId + 1, active := env.nextId :: env.active },
   env.nextId)

/-- `clearInterval(id)`: deactivates the timer with that handle. -/
def clearIntervalTimer (env : TimerEnv) (id : Nat) : TimerEnv :=
  { env with active := env.active.filter (fun x => x ≠ id) }

/-- The `CalendarSyncService` timer state: the environment's timers
together with the service's `syncInterval` field (`null` initially). -/
structure ServiceTimerState where
  env : TimerEnv
  syncInterval : Option Nat
deriving Repr, DecidableEq

/-- `startPolling` (calendarSync.ts lines 183-193):
`if (this.syncInterval) clearInterval(this.syncInterval)` followed by
`this.syncInterval = setInterval(...)`. -/
def startPolling (s : ServiceTimerState) : ServiceTimerState :=
  let env1 := match s.syncInterval with
    | some id => clearIntervalTimer s.env id
    | none => s.env
  let p := setIntervalTimer env1
  { env := p.1, syncInterval := some p.2 }

/-- `stopSync` (calendarSync.ts lines 198-203): when a handle is present,
clear it and null the field; otherwise do nothing. -/
def stopSync (s : ServiceTimerState) : ServiceTimerState :=
  match s.syncInterval with
  | some id => { env := clearIntervalTimer s.env id, syncInterval := none }
  | none => s

/-- The calls on a `CalendarSyncService` that touch the poll timer:
`initializeSync` (which calls `startPolling` only when the initial fetch
succeeds and rethrows otherwise, lines 15-24), a direct `startPolling`,
and `stopSync`. -/
inductive ServiceCall where
  | initializeSync (fetchSucceeds : Bool)
  | startPolling
  | stopSync
deriving Repr, DecidableEq

/-- Effect of one service call on the timer state. -/
def applyCall (s : ServiceTimerState) : ServiceCall → ServiceTimerState
  | .initializeSync ok => if ok then startPolling s else s
  | .startPolling => startPolling s
  | .stopSync => stopSync s

/-- A sequence of service calls, applied in order. -/
def runCalls (s : ServiceTimerState) (calls : List ServiceCall) :
    ServiceTimerState :=
  calls.foldl applyCall s

/-- A freshly constructed service: `syncInterval = null`, no active timer. -/
def initialServiceState : ServiceTimerState :=
  { env := { nextId := 0, active := [] }, syncInterval := none }

/-- The timer invariant: the active timers are exactly the one recorded in
`syncInterval` (or none), and any recorded handle was really handed out. -/
def TimerInvariant (s : ServiceTimerState) : Prop :=
  match s.syncInterval with
  | some id => s.env.active = [id] ∧ id < s.env.nextId
  | none => s.env.active = []

/-- `startPolling` preserves the timer invariant: the old handle (if any)
is cleared before the fresh one is installed. -/
theorem timerInvariant_startPolling (s : ServiceTimerState)
    (h : TimerInvariant s) : TimerInvariant (startPolling s) := by
  cases hsi : s.syncInterval with
  | none =>
    rw [TimerInvariant, hsi] at h
    simp [startPolling, hsi, setIntervalTimer, TimerInvariant, h]
  | some id =>
    rw [TimerInvariant, hsi] at h
    simp [startPolling, hsi, setIntervalTimer, TimerInvariant,
      clearIntervalTimer, h.1]

/-- `stopSync` preserves the timer invariant and leaves no active timer. -/
theorem timerInvariant_stopSync (s : ServiceTimerState)
    (h : TimerInvariant s) : TimerInvariant (stopSync s) := by
  cases hsi : s.syncInterval with
  | none =>
    rw [TimerInvariant, hsi] at h
    simp [stopSync, hsi, TimerInvariant, h]
  | some id =>
    rw [TimerInvariant, hsi] at h
    simp [stopSync, hsi, TimerInvariant, clearIntervalTimer, h.1]

/-- Every service call preserves the timer invariant. -/
theorem timerInvariant_applyCall (s : ServiceTimerState)
    (h : TimerInvariant s) (c : ServiceCall) :
    TimerInvariant (applyCall s c) := by
  cases c with
  | initializeSync ok =>
    cases ok with
    | false => exact h
    | true => exact timerInvariant_startPolling s h
  | startPolling => exact timerInvariant_startPolling s h
  | stopSync => exact timerInvariant_stopSync s h

/-- The invariant holds along any call sequence. -/
theorem timerInvariant_runCalls (calls : List ServiceCall) :
    ∀ s : ServiceTimerState, TimerInvariant s →
      TimerInvariant (runCalls s calls) := by
  induction calls with
  | nil => intro s h; exact h
  | cons c cs ih =>
    intro s h
    exact ih (applyCall s c) (timerInvariant_applyCall s h c)

/-- Under the invariant there is at most one active timer. -/
theorem timerInvariant_length (s : ServiceTimerState)
    (h : TimerInvariant s) : s.env.active.length ≤ 1 := by
  rw [TimerInvariant] at h
  cases hsi : s.syncInterval with
  | none => rw [hsi] at h; simp [h]
  | some id => rw [hsi] at h; simp [h.1]

/-- **C10**. Poll-timer lifecycle: (1) after any sequence of
`initializeSync`/`startPolling`/`stopSync` calls from a fresh service, at
most one interval timer is active (`startPolling` always clears the
existing handle before installing a new one); (2) `stopSync` is idempotent
on every state; (3) after `stopSync` the handle field is `null`; (4) after
any call sequence ending in `stopSync`, no timer of the service is active
at all. -/
theorem polling_timer_lifecycle :
    (∀ calls : List ServiceCall,
      (runCalls initialServiceState calls).env.active.length ≤ 1) ∧
    (∀ s : ServiceTimerState, stopSync (stopSync s) = stopSync s) ∧
    (∀ s : ServiceTimerState, (stopSync s).syncInterval = none) ∧
    (∀ calls : List ServiceCall,
      (runCalls initialServiceState (calls ++ [.stopSync])).env.active = [] ∧
      (runCalls initialServiceState
        (calls ++ [.stopSync])).syncInterval = none) := by
  have hinit : TimerInvariant initialServiceState := by
    rw [TimerInvariant]; rfl
  refine ⟨?_, ?_, ?_, ?_⟩
  · intro calls
    exact timerInvariant_length _ (timerInvariant_runCalls calls _ hinit)
  · intro s
    cases hsi : s.syncInterval with
    | none => simp [stopSync, hsi]
    | some id => simp [stopSync, hsi]
  · intro s
    cases hsi : s.syncInterval with
    | none => simp [stopSync, hsi]
    | some id => simp [stopSync, hsi]
  · intro calls
    have hI := timerInvariant_runCalls calls _ hinit
    have heq : runCalls initialServiceState
        (calls ++ [ServiceCall.stopSync]) =
        stopSync (runCalls initialServiceState calls) := by
      rw [runCalls, runCalls, List.foldl_append]
      rfl
    rw [heq]
    rw [TimerInvariant] at hI
    cases hsi : (runCalls initialServiceState calls).syncInterval with
    | none =>
      rw [hsi] at hI
      exact ⟨by simp [stopSync, hsi, hI], by simp [stopSync, hsi]⟩
    | some id =>
      rw [hsi] at hI
      exact ⟨by simp [stopSync, hsi, clearIntervalTimer, hI.1],
        by simp [stopSync, hsi]⟩

end CalendarSync

